import Mathlib

/-!
# Verification of the standing-desk controller (sensor + table logic)

Shallow embedding of `src/sensor.rs` and `src/table.rs`.

* Rust `f32` arithmetic is modelled by `F32`: IEEE-754 special values
  (`nan`, `inf`, `neginf`) propagate exactly as in IEEE-754, and finite
  arithmetic is exact rational arithmetic.  Every theorem below that relies on
  finite-value arithmetic only exercises operations that are exact in real
  IEEE-754 binary32 as well (subtraction of equal values, `x / x`, `0 * y`,
  `1 * y`, sums of small integers), or else depends only on the special-value
  (`nan`/`inf`) propagation rules, which `F32` reproduces exactly.
* Rust `Duration` values are modelled as nanosecond counts (`ℕ`);
  `Duration::div(u32)` floor-divides the total nanosecond count, as in `std`.
* `Centimeter` (from `crate::primitives`, not under `src/`) is modelled from
  the spec as a natural number.
* The GPIO pins, the clock and the motor are external collaborators; they are
  modelled as oracles (a sample stream for the echo pin, a list of height
  readings for the distance sensor of the table) and an event trace for the motor.
-/

/- Modelled from the spec: `Centimeter` of `crate::primitives` (the file is
not under `src/`).  "An integral value in centimeters, range implicitly 0–255.
Ordered; supports addition/subtraction by small integer offsets."  Heights are
carried as `ℕ` with truncated subtraction; theorems that use subtraction or
addition near the `u8` range boundaries carry hypotheses keeping them inside
`0–255`.  Rust `Duration` values are likewise carried as `ℕ` nanosecond
counts. -/

/-- Model of Rust `f32`: IEEE-754 special values plus exact finite values. -/
inductive F32 where
  | finite (q : ℚ)
  | nan
  | inf
  | neginf
deriving DecidableEq, Repr

/-- IEEE-754 subtraction (finite arithmetic exact). -/
def F32.sub : F32 → F32 → F32
  | .finite a, .finite b => .finite (a - b)
  | .finite _, .inf => .neginf
  | .finite _, .neginf => .inf
  | .inf, .finite _ => .inf
  | .inf, .neginf => .inf
  | .neginf, .finite _ => .neginf
  | .neginf, .inf => .neginf
  | _, _ => .nan

/-- IEEE-754 division (finite arithmetic exact; division by `+0` of a nonzero
finite value gives a signed infinity, `0 / 0` gives `nan`). -/
def F32.div : F32 → F32 → F32
  | .finite a, .finite b =>
      if b = 0 then (if a = 0 then .nan else if 0 < a then .inf else .neginf)
      else .finite (a / b)
  | .finite _, .inf => .finite 0
  | .finite _, .neginf => .finite 0
  | .inf, .finite b => if b < 0 then .neginf else .inf
  | .neginf, .finite b => if b < 0 then .inf else .neginf
  | _, _ => .nan

/-- IEEE-754 multiplication (finite arithmetic exact; `inf * 0 = nan`). -/
def F32.mul : F32 → F32 → F32
  | .finite a, .finite b => .finite (a * b)
  | .finite a, .inf => if a = 0 then .nan else if 0 < a then .inf else .neginf
  | .finite a, .neginf => if a = 0 then .nan else if 0 < a then .neginf else .inf
  | .inf, .finite b => if b = 0 then .nan else if 0 < b then .inf else .neginf
  | .neginf, .finite b => if b = 0 then .nan else if 0 < b then .neginf else .inf
  | .inf, .inf => .inf
  | .inf, .neginf => .neginf
  | .neginf, .inf => .neginf
  | .neginf, .neginf => .inf
  | _, _ => .nan

/-- IEEE-754 addition (finite arithmetic exact; `inf + neginf = nan`). -/
def F32.add : F32 → F32 → F32
  | .finite a, .finite b => .finite (a + b)
  | .finite _, .inf => .inf
  | .inf, .finite _ => .inf
  | .inf, .inf => .inf
  | .finite _, .neginf => .neginf
  | .neginf, .finite _ => .neginf
  | .neginf, .neginf => .neginf
  | _, _ => .nan

/-- Rounding half away from zero on rationals, as Rust `f32::round` does. -/
def roundHalfAwayFromZero (q : ℚ) : ℤ :=
  if 0 ≤ q then ⌊q + 1/2⌋ else ⌈q - 1/2⌉

/-- Rust `f32::round`: round half away from zero; `nan` and infinities are
returned unchanged. -/
def F32.roundRs : F32 → F32
  | .finite q => .finite ((roundHalfAwayFromZero q : ℤ) : ℚ)
  | x => x

/-- Rust `as u8` on an `f32`: saturating cast — truncate toward zero, clamp to
`[0, 255]`, and `nan` casts to `0` (Rust reference, float-to-int casts). -/
def F32.asU8 : F32 → ℕ
  | .finite q => if q < 0 then 0 else min 255 (Int.toNat ⌊q⌋)
  | .nan => 0
  | .inf => 255
  | .neginf => 0

/-- Struct `SensorCalibrationData` of `src/sensor.rs`.  The two `f32` echo fields are
finite values loaded from the calibration file; they are carried as exact
rationals. -/
structure SensorCalibrationData where
  min_height : ℕ
  min_height_echo_secs : ℚ
  max_height : ℕ
  max_height_echo_secs : ℚ
deriving DecidableEq, Repr

/-- Enum `rppal::gpio::Level`. -/
inductive RsLevel where
  | low
  | high
deriving DecidableEq, Repr

/-- The error values produced by the sensor module (the `anyhow!` messages of
`measure_one_full_echo_duration`). -/
inductive MeasureError where
  /-- "unsuccessful measurement, echo trigger timed out" -/
  | triggerTimeout
  /-- "unsuccessful measurement, echo triggered on low signal" -/
  | spuriousLowTrigger
  /-- "unsuccessful measurement, probably no object close enough" -/
  | outOfRange
deriving DecidableEq, Repr

/-- One echo-pin interaction, as observed by
`measure_one_full_echo_duration`: the first `poll_interrupt` outcome (`none`
when the 10 ms wait timed out, otherwise the level the edge transitioned to),
and the elapsed time between the two polls in nanoseconds. -/
abbrev EchoSample := Option RsLevel × ℕ

/-- 200 ms in nanoseconds, the validity ceiling of a single measurement. -/
def twoHundredMillis : ℕ := 200000000

/-- Function `HCSR04::measure_one_full_echo_duration`, given the observed start-edge
level and elapsed duration.  The trigger-pin writes and sleeps have no
observable effect on the result; GPIO/clock failures of the `?` operators are
outside the model (the claims concern the measurement-validation logic). -/
def measure_one_full_echo_duration (sample : EchoSample) :
    Except MeasureError ℕ :=
  match sample.1 with
  | none => .error .triggerTimeout
  | some .low => .error .spuriousLowTrigger
  | some .high =>
    if twoHundredMillis ≤ sample.2 then .error .outOfRange
    else .ok sample.2

/-- The `measurement_burst` count fixed to `3` in `HCSR04::new`. -/
def measurement_burst : ℕ := 3

/-- The measurement loop of `measure_burst_echo_duration`: perform `n` single
measurements, drawing the `i`-th echo-pin interaction from `samples i`,
appending each successful duration to the buffer and propagating the first
error. -/
def burstLoop (samples : ℕ → EchoSample) :
    ℕ → ℕ → List ℕ → Except MeasureError (List ℕ)
  | _, 0, buffer => .ok buffer
  | i, n + 1, buffer =>
    match measure_one_full_echo_duration (samples i) with
    | .error e => .error e
    | .ok echo => burstLoop samples (i + 1) n (buffer ++ [echo])

/-- Function `HCSR04::measure_burst_echo_duration`: clear the buffer, take
`measurement_burst` single measurements, and return their average
(`Duration / u32` floor-divides the nanosecond total). -/
def measure_burst_echo_duration (samples : ℕ → EchoSample) :
    Except MeasureError ℕ :=
  match burstLoop samples 0 measurement_burst [] with
  | .error e => .error e
  | .ok buffer => .ok (buffer.sum / measurement_burst)

/-- Conversion `Duration::as_secs_f32` (nanoseconds to seconds; exact in the model). -/
def durationAsSecsF32 (d : ℕ) : F32 := .finite ((d : ℚ) / 1000000000)

/-- The interpolation step of `HCSR04::current_height`, mapping the averaged
echo duration (an `f32` in seconds) through the calibration data:
`normalized = (echo - min_echo) / (max_echo - min_echo)`,
`height = normalized * (max_height - min_height) + min_height`,
then `height.round() as u8`. -/
def interpolate_height (cal : SensorCalibrationData) (echo_duration : F32) :
    ℕ :=
  let min_height_calibration_echo := F32.finite cal.min_height_echo_secs
  let max_height_calibration_echo := F32.finite cal.max_height_echo_secs
  let normalized_echo :=
    (echo_duration.sub min_height_calibration_echo).div
      (max_height_calibration_echo.sub min_height_calibration_echo)
  let height :=
    (normalized_echo.mul
        (F32.finite ((cal.max_height - cal.min_height : ℕ) : ℚ))).add
      (F32.finite (cal.min_height : ℚ))
  height.roundRs.asU8

/-- Function `HCSR04::current_height`: average a burst of echo measurements and
interpolate; any burst error propagates. -/
def current_height (cal : SensorCalibrationData) (samples : ℕ → EchoSample) :
    Except MeasureError ℕ :=
  match measure_burst_echo_duration samples with
  | .error e => .error e
  | .ok d => .ok (interpolate_height cal (durationAsSecsF32 d))

/-- The `HCSR04` state relevant to the claims: its calibration data. -/
structure HCSR04 where
  calibration_data : SensorCalibrationData
deriving DecidableEq, Repr

/-- Function `HCSR04::set_min_height`: burst-measure first; on error the `?` operator
returns early and the state is untouched; on success store the averaged echo
(as `f32` seconds) and the height into the two `min` anchors. -/
def set_min_height (s : HCSR04) (samples : ℕ → EchoSample)
    (height : ℕ) : Except MeasureError Unit × HCSR04 :=
  match measure_burst_echo_duration samples with
  | .error e => (.error e, s)
  | .ok d =>
    (.ok (),
      { calibration_data :=
        { s.calibration_data with
          min_height_echo_secs := (d : ℚ) / 1000000000
          min_height := height } })

/-- Function `HCSR04::set_max_height`: as `set_min_height` but for the `max` anchors. -/
def set_max_height (s : HCSR04) (samples : ℕ → EchoSample)
    (height : ℕ) : Except MeasureError Unit × HCSR04 :=
  match measure_burst_echo_duration samples with
  | .error e => (.error e, s)
  | .ok d =>
    (.ok (),
      { calibration_data :=
        { s.calibration_data with
          max_height_echo_secs := (d : ℚ) / 1000000000
          max_height := height } })

/-- Struct `TableConfig` of `crate::config` (fields as used by `src/table.rs`). -/
structure TableConfig where
  standing_height : ℕ
  sitting_height : ℕ
  min_table_height : ℕ
  max_table_height : ℕ
deriving DecidableEq, Repr

/-- The observable actions of `StandingDesk`: motor commands
(`Motor::up/down/stop`, modelled from the spec — `crate::motor` is not under
`src/`), sensor height reads, and the two calibration-setting calls. -/
inductive Event where
  | motorUp
  | motorDown
  | motorStop
  | sensorRead (r : Except ℕ ℕ)
  | setMaxHeight (h : ℕ)
  | setMinHeight (h : ℕ)
deriving Repr

/-- The errors `move_to_height`/`calibrate` can surface: the two `anyhow!`
bounds errors, a propagated sensor error (abstract payload `ℕ`), and
`outOfReadings`, a model artifact marking that the read oracle ran out (the
Rust loops are unbounded; theorems supply enough readings). -/
inductive TableError where
  | aboveMax (max : ℕ)
  | belowMin (min : ℕ)
  | sensor (e : ℕ)
  | outOfReadings
deriving DecidableEq, Repr

/-- The `while self.sensor.get_current_height()? < height_cm` loop of
`move_to_height` (upward seek): each iteration reads once; a read error
propagates via `?`; the loop exits on the first reading not below the
target.  Returns the result, the event trace, and the unconsumed readings. -/
def seekUp (height_cm : ℕ) :
    List (Except ℕ ℕ) →
    Except TableError Unit × List Event × List (Except ℕ ℕ)
  | [] => (.error .outOfReadings, [], [])
  | r :: rest =>
    match r with
    | .error e => (.error (.sensor e), [.sensorRead (.error e)], rest)
    | .ok h =>
      if h < height_cm then
        match seekUp height_cm rest with
        | (res, tr, rem) => (res, .sensorRead (.ok h) :: tr, rem)
      else (.ok (), [.sensorRead (.ok h)], rest)

/-- The `while self.sensor.get_current_height()? > height_cm` loop of
`move_to_height` (downward seek), symmetric to `seekUp`. -/
def seekDown (height_cm : ℕ) :
    List (Except ℕ ℕ) →
    Except TableError Unit × List Event × List (Except ℕ ℕ)
  | [] => (.error .outOfReadings, [], [])
  | r :: rest =>
    match r with
    | .error e => (.error (.sensor e), [.sensorRead (.error e)], rest)
    | .ok h =>
      if height_cm < h then
        match seekDown height_cm rest with
        | (res, tr, rem) => (res, .sensorRead (.ok h) :: tr, rem)
      else (.ok (), [.sensorRead (.ok h)], rest)

/-- Function `StandingDesk::move_to_height`, with the distance sensor replaced by a
list of pending `get_current_height` results and the motor by the event
trace: bounds checks first (max before min), then the initial read, the
inclusive ±1 cm tolerance band, then the two sequential direction blocks of
the source (`current < target` seeks up, `current > target` seeks down), each
ending in `motor.stop()` on normal exit. -/
def moveToHeightAux (cfg : TableConfig) (reads : List (Except ℕ ℕ))
    (height_cm : ℕ) :
    Except TableError Unit × List Event × List (Except ℕ ℕ) :=
  if cfg.max_table_height < height_cm then
    (.error (.aboveMax cfg.max_table_height), [], reads)
  else if height_cm < cfg.min_table_height then
    (.error (.belowMin cfg.min_table_height), [], reads)
  else
    match reads with
    | [] => (.error .outOfReadings, [], [])
    | .error e :: rest => (.error (.sensor e), [.sensorRead (.error e)], rest)
    | .ok ch :: rest =>
      if height_cm - 1 ≤ ch ∧ ch ≤ height_cm + 1 then
        (.ok (), [.sensorRead (.ok ch)], rest)
      else
        match
          (if ch < height_cm then
            match seekUp height_cm rest with
            | (.error e, tr, rem) => (.error e, Event.motorUp :: tr, rem)
            | (.ok _, tr, rem) =>
              (.ok (), Event.motorUp :: (tr ++ [Event.motorStop]), rem)
          else (.ok (), [], rest) :
            Except TableError Unit × List Event × List (Except ℕ ℕ))
        with
        | (.error e, tr, rem) => (.error e, .sensorRead (.ok ch) :: tr, rem)
        | (.ok _, tr1, rem1) =>
          match
            (if height_cm < ch then
              match seekDown height_cm rem1 with
              | (.error e, tr, rem) => (.error e, Event.motorDown :: tr, rem)
              | (.ok _, tr, rem) =>
                (.ok (), Event.motorDown :: (tr ++ [Event.motorStop]), rem)
            else (.ok (), [], rem1) :
              Except TableError Unit × List Event × List (Except ℕ ℕ))
          with
          | (res, tr2, rem2) =>
            (res, .sensorRead (.ok ch) :: (tr1 ++ tr2), rem2)

/-- Function `move_to_height` as seen by callers: result and event trace. -/
def move_to_height (cfg : TableConfig) (reads : List (Except ℕ ℕ))
    (height_cm : ℕ) : Except TableError Unit × List Event :=
  ((moveToHeightAux cfg reads height_cm).1, (moveToHeightAux cfg reads height_cm).2.1)

/-- Function `Movement::move_to_sitting` for `StandingDesk`: a thin wrapper calling
`move_to_height` with the configured sitting height. -/
def move_to_sitting (cfg : TableConfig) (reads : List (Except ℕ ℕ)) :
    Except TableError Unit × List Event × List (Except ℕ ℕ) :=
  moveToHeightAux cfg reads cfg.sitting_height

/-- Function `Movement::move_to_standing` for `StandingDesk`. -/
def move_to_standing (cfg : TableConfig) (reads : List (Except ℕ ℕ)) :
    Except TableError Unit × List Event × List (Except ℕ ℕ) :=
  moveToHeightAux cfg reads cfg.standing_height

/-- The upward polling loop of `calibrate`:
`while previous_height < current_height { sleep; previous = current;
current = read()? }`.  On normal exit returns the last reading (the first one
not above its predecessor). -/
def ascendLoop :
    List (Except ℕ ℕ) → ℕ → ℕ →
    Except TableError ℕ × List Event × List (Except ℕ ℕ)
  | reads, previous_height, ch =>
    if previous_height < ch then
      match reads with
      | [] => (.error .outOfReadings, [], [])
      | .error e :: rest => (.error (.sensor e), [.sensorRead (.error e)], rest)
      | .ok h :: rest =>
        match ascendLoop rest ch h with
        | (res, tr, rem) => (res, .sensorRead (.ok h) :: tr, rem)
    else (.ok ch, [], reads)

/-- The downward polling loop of `calibrate`, symmetric to `ascendLoop`. -/
def descendLoop :
    List (Except ℕ ℕ) → ℕ → ℕ →
    Except TableError ℕ × List Event × List (Except ℕ ℕ)
  | reads, previous_height, ch =>
    if ch < previous_height then
      match reads with
      | [] => (.error .outOfReadings, [], [])
      | .error e :: rest => (.error (.sensor e), [.sensorRead (.error e)], rest)
      | .ok h :: rest =>
        match descendLoop rest ch h with
        | (res, tr, rem) => (res, .sensorRead (.ok h) :: tr, rem)
    else (.ok ch, [], reads)

/-- The sensor-facing oracle for `calibrate`: the pending
`get_current_height` results and the outcomes of the `set_max_height` and
`set_min_height` calls (each performs its own burst measurement). -/
structure CalOracle where
  reads : List (Except ℕ ℕ)
  setMaxResult : Except ℕ Unit
  setMinResult : Except ℕ Unit

/-- Function `Movement::calibrate` for `StandingDesk`: motor up; initial read;
ascend-poll with `previous = current - 1` as kick-start; motor stop;
`set_max_height(config.max_table_height)`; motor down; descend-poll with
`previous = current + 1`; motor stop;
`set_min_height(config.min_table_height)`; finally `move_to_sitting()`. -/
def calibrate (cfg : TableConfig) (o : CalOracle) :
    Except TableError Unit × List Event :=
  match o.reads with
  | [] => (.error .outOfReadings, [Event.motorUp])
  | .error e :: _ =>
    (.error (.sensor e), [Event.motorUp, .sensorRead (.error e)])
  | .ok ch :: rest =>
    match ascendLoop rest (ch - 1) ch with
    | (.error e, tr, _) =>
      (.error e, Event.motorUp :: .sensorRead (.ok ch) :: tr)
    | (.ok top, tr, rem) =>
      let events1 := Event.motorUp :: .sensorRead (.ok ch) :: tr
        ++ [Event.motorStop, .setMaxHeight cfg.max_table_height]
      match o.setMaxResult with
      | .error e => (.error (.sensor e), events1)
      | .ok _ =>
        match descendLoop rem (top + 1) top with
        | (.error e, tr2, _) =>
          (.error e, events1 ++ Event.motorDown :: tr2)
        | (.ok _, tr2, rem2) =>
          let events2 := events1 ++ Event.motorDown :: tr2
            ++ [Event.motorStop, .setMinHeight cfg.min_table_height]
          match o.setMinResult with
          | .error e => (.error (.sensor e), events2)
          | .ok _ =>
            match move_to_sitting cfg rem2 with
            | (res, tr3, _) => (res, events2 ++ tr3)

/-- Is this event a motor command (`up`, `down` or `stop`)? -/
def isMotorEvent : Event → Bool
  | .motorUp => true
  | .motorDown => true
  | .motorStop => true
  | _ => false

/-- The last motor command of a trace, i.e. the state the motor is left in. -/
def lastMotorEvent (tr : List Event) : Option Event :=
  (tr.filter isMotorEvent).getLast?

/-- The example calibration of the spec:
`{min_height:60, min_echo:0.003, max_height:120, max_echo:0.009}`. -/
def calA : SensorCalibrationData :=
  { min_height := 60, min_height_echo_secs := 3/1000,
    max_height := 120, max_height_echo_secs := 9/1000 }

/-- A degenerate calibration: both echo anchors are equal. -/
def calDeg : SensorCalibrationData :=
  { min_height := 60, min_height_echo_secs := 3/1000,
    max_height := 120, max_height_echo_secs := 3/1000 }

/-- The example table configuration of the spec. -/
def cfgA : TableConfig :=
  { standing_height := 110, sitting_height := 70,
    min_table_height := 60, max_table_height := 120 }

/-- A sample stream of clean 6 ms echoes. -/
def samplesSixMs : ℕ → EchoSample := fun _ => (some .high, 6000000)

/-- A sample stream that always times out on the first edge wait. -/
def samplesTimeout : ℕ → EchoSample := fun _ => (none, 0)

/-- C2: `measure_one_full_echo_duration` returns the trigger-timeout error
when the first edge wait timed out, the spurious-low error when the first
observed edge level was low, the out-of-range error when the elapsed duration
is at least 200 ms, and the elapsed duration otherwise; consequently every
successfully returned echo duration is strictly below 200 ms. -/
theorem measure_one_echo_validation (sample : EchoSample) :
    (sample.1 = none →
      measure_one_full_echo_duration sample = .error .triggerTimeout) ∧
    (sample.1 = some .low →
      measure_one_full_echo_duration sample = .error .spuriousLowTrigger) ∧
    (sample.1 = some .high → twoHundredMillis ≤ sample.2 →
      measure_one_full_echo_duration sample = .error .outOfRange) ∧
    (sample.1 = some .high → sample.2 < twoHundredMillis →
      measure_one_full_echo_duration sample = .ok sample.2) ∧
    (∀ d, measure_one_full_echo_duration sample = .ok d →
      d < twoHundredMillis) := by
  obtain ⟨l, d⟩ := sample
  refine ⟨?_, ?_, ?_, ?_, ?_⟩
  · rintro rfl; rfl
  · rintro rfl; rfl
  · rintro rfl h
    simp only [measure_one_full_echo_duration, if_pos h]
  · rintro rfl h
    simp only [measure_one_full_echo_duration]
    rw [if_neg (Nat.not_le.mpr h)]
  · intro d' h
    rcases l with _ | l
    · exact absurd h (by simp [measure_one_full_echo_duration])
    · rcases l
      · exact absurd h (by simp [measure_one_full_echo_duration])
      · by_cases hd : twoHundredMillis ≤ d
        · exact absurd h (by simp [measure_one_full_echo_duration, hd])
        · simp only [measure_one_full_echo_duration, if_neg hd, Except.ok.injEq] at h
          exact h ▸ Nat.not_le.mp hd

/-- Witness for C2 at concrete samples. -/
theorem measure_one_echo_validation_witness :
    measure_one_full_echo_duration (none, 0) = .error .triggerTimeout ∧
    measure_one_full_echo_duration (some .low, 0) = .error .spuriousLowTrigger ∧
    measure_one_full_echo_duration (some .high, 200000000) = .error .outOfRange ∧
    measure_one_full_echo_duration (some .high, 5000000) = .ok 5000000 ∧
    (5000000 : ℕ) < twoHundredMillis :=
  ⟨(measure_one_echo_validation (none, 0)).1 rfl,
   (measure_one_echo_validation (some .low, 0)).2.1 rfl,
   (measure_one_echo_validation (some .high, 200000000)).2.2.1 rfl (by decide),
   (measure_one_echo_validation (some .high, 5000000)).2.2.2.1 rfl (by decide),
   (measure_one_echo_validation (some .high, 5000000)).2.2.2.2 5000000
     ((measure_one_echo_validation (some .high, 5000000)).2.2.2.1 rfl (by decide))⟩

/-- C6: a burst is exactly the first 3 samples, arithmetic-averaged; the
first failing sample fails the whole burst (and `current_height`) with that
error of that sample, and all-timeout bursts surface the trigger-timeout error,
never a height. -/
theorem burst_three_samples_average_and_error_propagation
    (cal : SensorCalibrationData) (samples : ℕ → EchoSample) :
    (∀ d0 d1 d2 : ℕ,
      measure_one_full_echo_duration (samples 0) = .ok d0 →
      measure_one_full_echo_duration (samples 1) = .ok d1 →
      measure_one_full_echo_duration (samples 2) = .ok d2 →
      measure_burst_echo_duration samples = .ok ((d0 + d1 + d2) / 3) ∧
      current_height cal samples =
        .ok (interpolate_height cal (durationAsSecsF32 ((d0 + d1 + d2) / 3)))) ∧
    (∀ samples2 : ℕ → EchoSample,
      samples 0 = samples2 0 → samples 1 = samples2 1 → samples 2 = samples2 2 →
      measure_burst_echo_duration samples = measure_burst_echo_duration samples2) ∧
    (∀ (k : ℕ) (e : MeasureError), k < measurement_burst →
      (∀ i, i < k → ∃ d, measure_one_full_echo_duration (samples i) = .ok d) →
      measure_one_full_echo_duration (samples k) = .error e →
      measure_burst_echo_duration samples = .error e ∧
      current_height cal samples = .error e) ∧
    ((∀ i, i < measurement_burst → (samples i).1 = none) →
      current_height cal samples = .error .triggerTimeout) := by
  refine ⟨?_, ?_, ?_, ?_⟩
  · intro d0 d1 d2 h0 h1 h2
    have hb : measure_burst_echo_duration samples = .ok ((d0 + d1 + d2) / 3) := by
      simp [measure_burst_echo_duration, measurement_burst, burstLoop, h0, h1, h2]
      ring_nf
    exact ⟨hb, by simp [current_height, hb]⟩
  · intro samples2 e0 e1 e2
    simp [measure_burst_echo_duration, measurement_burst, burstLoop, e0, e1, e2]
  · intro k e hk hok herr
    have hk3 : k < 3 := hk
    interval_cases k
    · have hb : measure_burst_echo_duration samples = .error e := by
        simp [measure_burst_echo_duration, measurement_burst, burstLoop, herr]
      exact ⟨hb, by simp [current_height, hb]⟩
    · obtain ⟨d, hd⟩ := hok 0 (by omega)
      have hb : measure_burst_echo_duration samples = .error e := by
        simp [measure_burst_echo_duration, measurement_burst, burstLoop, hd, herr]
      exact ⟨hb, by simp [current_height, hb]⟩
    · obtain ⟨da, hda⟩ := hok 0 (by omega)
      obtain ⟨db, hdb⟩ := hok 1 (by omega)
      have hb : measure_burst_echo_duration samples = .error e := by
        simp [measure_burst_echo_duration, measurement_burst, burstLoop, hda, hdb, herr]
      exact ⟨hb, by simp [current_height, hb]⟩
  · intro hall
    have h0 : measure_one_full_echo_duration (samples 0) = .error .triggerTimeout := by
      have := hall 0 (by simp [measurement_burst])
      simp [measure_one_full_echo_duration, this]
    have hb : measure_burst_echo_duration samples = .error .triggerTimeout := by
      simp [measure_burst_echo_duration, measurement_burst, burstLoop, h0]
    simp [current_height, hb]

/-- Witness for C6 at concrete sample streams. -/
theorem burst_three_samples_average_witness :
    measure_burst_echo_duration samplesSixMs = .ok 6000000 ∧
    current_height calA samplesTimeout = .error .triggerTimeout := by
  constructor
  · have := ((burst_three_samples_average_and_error_propagation calA
      samplesSixMs).1 6000000 6000000 6000000 rfl rfl rfl).1
    simpa using this
  · exact (burst_three_samples_average_and_error_propagation calA
      samplesTimeout).2.2.2 (fun i _ => rfl)

/-- C1 (code bug): with a degenerate calibration (equal echo anchors)
`current_height` does not fail — the f32 interpolation divides by zero,
producing `nan` (echo equal to the anchor) or `+inf` (echo above it), and the
saturating `as u8` cast turns these into `Ok(0)` and `Ok(255)` respectively. -/
theorem current_height_degenerate_calibration_silently_succeeds :
    calDeg.min_height_echo_secs = calDeg.max_height_echo_secs ∧
    current_height calDeg (fun _ => (some .high, 3000000)) = .ok 0 ∧
    current_height calDeg (fun _ => (some .high, 6000000)) = .ok 255 := by
  refine ⟨rfl, ?_, ?_⟩ <;>
    norm_num [current_height, measure_burst_echo_duration, measurement_burst,
      burstLoop, measure_one_full_echo_duration, twoHundredMillis,
      durationAsSecsF32, interpolate_height, F32.sub, F32.div, F32.mul, F32.add,
      F32.roundRs, F32.asU8, roundHalfAwayFromZero, calDeg]

/-- On a non-degenerate calibration the interpolation follows the finite
(`f32`-exact) arithmetic path. -/
theorem interpolate_height_finite (cal : SensorCalibrationData) (q : ℚ)
    (hd : cal.max_height_echo_secs - cal.min_height_echo_secs ≠ 0) :
    interpolate_height cal (.finite q) =
      (F32.roundRs (.finite
        ((q - cal.min_height_echo_secs) /
            (cal.max_height_echo_secs - cal.min_height_echo_secs) *
            ((cal.max_height - cal.min_height : ℕ) : ℚ) +
          (cal.min_height : ℚ)))).asU8 := by
  simp [interpolate_height, F32.sub, F32.div, F32.mul, F32.add, if_neg hd]

/-- Rounding then `as u8`-casting an integral height that is already inside
`[0, 255]` is the identity. -/
theorem F32_roundRs_asU8_natCast (n : ℕ) (h : n ≤ 255) :
    (F32.roundRs (.finite (n : ℚ))).asU8 = n := by
  have hfloor : roundHalfAwayFromZero (n : ℚ) = n := by
    unfold roundHalfAwayFromZero
    rw [if_pos (by positivity)]
    rw [show ((n : ℚ) + 1/2) = ((n : ℤ) : ℚ) + 1/2 by push_cast; ring]
    rw [Int.floor_int_add]
    norm_num
  simp only [F32.roundRs, hfloor, F32.asU8]
  rw [if_neg (not_lt.mpr (by positivity))]
  rw [Int.floor_intCast, Int.toNat_natCast]
  exact min_eq_right h

/-- C5: with distinct echo anchors (and a calibration inside the `u8` height
range), interpolating the exact `min_height_echo` anchor yields `min_height`
and interpolating the exact `max_height_echo` anchor yields `max_height`. -/
theorem interpolation_anchor_round_trip (cal : SensorCalibrationData)
    (hne : cal.min_height_echo_secs ≠ cal.max_height_echo_secs)
    (hmm : cal.min_height ≤ cal.max_height) (hub : cal.max_height ≤ 255) :
    interpolate_height cal (.finite cal.min_height_echo_secs) = cal.min_height ∧
    interpolate_height cal (.finite cal.max_height_echo_secs) = cal.max_height := by
  have hd : cal.max_height_echo_secs - cal.min_height_echo_secs ≠ 0 :=
    sub_ne_zero.mpr (Ne.symm hne)
  constructor
  · rw [interpolate_height_finite cal _ hd, sub_self, zero_div, zero_mul, zero_add]
    exact F32_roundRs_asU8_natCast cal.min_height (hmm.trans hub)
  · rw [interpolate_height_finite cal _ hd, div_self hd, one_mul,
      Nat.cast_sub hmm, sub_add_cancel]
    exact F32_roundRs_asU8_natCast cal.max_height hub

/-- Witness for C5 on the example calibration of the spec. -/
theorem interpolation_anchor_round_trip_witness :
    interpolate_height calA (.finite calA.min_height_echo_secs) = calA.min_height ∧
    interpolate_height calA (.finite calA.max_height_echo_secs) = calA.max_height :=
  interpolation_anchor_round_trip calA (by norm_num [calA]) (by norm_num [calA])
    (by norm_num [calA])

/-- C9: with distinct echo anchors, the height returned by the interpolation
is exactly the rounded interpolant clamped into `[0, 255]` — the saturating
`as u8` cast, never a wrap-around. -/
theorem interpolation_saturates (cal : SensorCalibrationData) (q : ℚ)
    (hne : cal.min_height_echo_secs ≠ cal.max_height_echo_secs) :
    interpolate_height cal (.finite q) =
      Int.toNat (min 255 (max 0 (roundHalfAwayFromZero
        ((q - cal.min_height_echo_secs) /
            (cal.max_height_echo_secs - cal.min_height_echo_secs) *
            ((cal.max_height - cal.min_height : ℕ) : ℚ) +
          (cal.min_height : ℚ))))) := by
  have hd : cal.max_height_echo_secs - cal.min_height_echo_secs ≠ 0 :=
    sub_ne_zero.mpr (Ne.symm hne)
  rw [interpolate_height_finite cal q hd]
  simp only [F32.roundRs, F32.asU8]
  set k := roundHalfAwayFromZero
      ((q - cal.min_height_echo_secs) /
          (cal.max_height_echo_secs - cal.min_height_echo_secs) *
          ((cal.max_height - cal.min_height : ℕ) : ℚ) +
        (cal.min_height : ℚ)) with hkdef
  by_cases hk : k < 0
  · rw [if_pos (by exact_mod_cast hk)]
    rw [max_eq_left hk.le]
    simp
  · rw [if_neg (by exact_mod_cast hk)]
    rw [Int.floor_intCast]
    rw [max_eq_right (not_lt.mp hk)]
    rcases le_total 255 k with hle | hle
    · have h1 : (255 : ℕ) ≤ Int.toNat k := by omega
      rw [min_eq_left hle, min_eq_left h1]
      rfl
    · have h1 : Int.toNat k ≤ 255 := by omega
      rw [min_eq_right hle, min_eq_right h1]

/-- Witness for C9: a measured echo far past the max anchor interpolates to
390 and is saturated to 255. -/
theorem interpolation_saturates_witness :
    interpolate_height calA (.finite (36/1000)) =
      Int.toNat (min 255 (max 0 (roundHalfAwayFromZero
        ((36/1000 - calA.min_height_echo_secs) /
            (calA.max_height_echo_secs - calA.min_height_echo_secs) *
            ((calA.max_height - calA.min_height : ℕ) : ℚ) +
          (calA.min_height : ℚ))))) ∧
    interpolate_height calA (.finite (36/1000)) = 255 := by
  refine ⟨interpolation_saturates calA (36/1000) (by norm_num [calA]), ?_⟩
  rw [interpolation_saturates calA (36/1000) (by norm_num [calA])]
  norm_num [calA, roundHalfAwayFromZero]
  rfl

/-- C10: `set_min_height` and `set_max_height` are atomic: a failing burst
measurement leaves the calibration data entirely unchanged (and surfaces the
error of the burst); a successful one updates exactly the corresponding height and
echo anchors. -/
theorem set_height_atomicity (s : HCSR04) (samples : ℕ → EchoSample)
    (h : ℕ) :
    (∀ e, measure_burst_echo_duration samples = .error e →
      set_min_height s samples h = (.error e, s) ∧
      set_max_height s samples h = (.error e, s)) ∧
    (∀ d, measure_burst_echo_duration samples = .ok d →
      set_min_height s samples h =
        (.ok (), ⟨{ s.calibration_data with
          min_height_echo_secs := (d : ℚ) / 1000000000, min_height := h }⟩) ∧
      set_max_height s samples h =
        (.ok (), ⟨{ s.calibration_data with
          max_height_echo_secs := (d : ℚ) / 1000000000, max_height := h }⟩)) := by
  constructor
  · intro e he
    constructor <;> simp [set_min_height, set_max_height, he]
  · intro d hd
    constructor <;> simp [set_min_height, set_max_height, hd]

/-- Witness for C10: a timed-out burst leaves the state unchanged; a clean
6 ms burst updates the max anchors. -/
theorem set_height_atomicity_witness :
    set_min_height ⟨calA⟩ samplesTimeout 10 = (.error .triggerTimeout, ⟨calA⟩) ∧
    set_max_height ⟨calA⟩ samplesSixMs 120 =
      (.ok (), ⟨{ calA with
        max_height_echo_secs := ((6000000 : ℕ) : ℚ) / 1000000000,
        max_height := 120 }⟩) :=
  ⟨((set_height_atomicity ⟨calA⟩ samplesTimeout 10).1 .triggerTimeout rfl).1,
   ((set_height_atomicity ⟨calA⟩ samplesSixMs 120).2 6000000 rfl).2⟩

/-- C3: a target strictly above `max_table_height` fails with the
exceeds-max bounds error and a target strictly below `min_table_height`
fails with the below-min bounds error, in both cases with an empty event
trace — before any motor command and before any sensor reading. -/
theorem move_to_height_bounds_check (cfg : TableConfig)
    (reads : List (Except ℕ ℕ)) (height_cm : ℕ)
    (hvalid : cfg.min_table_height ≤ cfg.max_table_height) :
    (cfg.max_table_height < height_cm →
      move_to_height cfg reads height_cm =
        (.error (.aboveMax cfg.max_table_height), [])) ∧
    (height_cm < cfg.min_table_height →
      move_to_height cfg reads height_cm =
        (.error (.belowMin cfg.min_table_height), [])) := by
  constructor
  · intro h
    simp [move_to_height, moveToHeightAux, if_pos h]
  · intro h
    have hnot : ¬ cfg.max_table_height < height_cm := by omega
    simp [move_to_height, moveToHeightAux, hnot, if_pos h]

/-- Witness for C3 on the example configuration of the spec, targets 130 and 50. -/
theorem move_to_height_bounds_check_witness :
    move_to_height cfgA [] 130 = (.error (.aboveMax 120), []) ∧
    move_to_height cfgA [] 50 = (.error (.belowMin 60), []) :=
  ⟨(move_to_height_bounds_check cfgA [] 130 (by decide)).1 (by decide),
   (move_to_height_bounds_check cfgA [] 50 (by decide)).2 (by decide)⟩

/-- C4: an in-bounds target whose initial reading already lies in the
inclusive tolerance band `[target - 1, target + 1]` succeeds with only that
single sensor read in the trace — no motor command at all. -/
theorem move_to_height_tolerance_band_no_motion (cfg : TableConfig)
    (rest : List (Except ℕ ℕ)) (height_cm ch : ℕ)
    (hmax : height_cm ≤ cfg.max_table_height)
    (hmin : cfg.min_table_height ≤ height_cm)
    (hlo : height_cm - 1 ≤ ch) (hhi : ch ≤ height_cm + 1) :
    move_to_height cfg (.ok ch :: rest) height_cm =
      (.ok (), [.sensorRead (.ok ch)]) := by
  have h1 : ¬ cfg.max_table_height < height_cm := by omega
  have h2 : ¬ height_cm < cfg.min_table_height := by omega
  simp [move_to_height, moveToHeightAux, h1, h2, hlo, hhi]

/-- Witness for C4: target 70, current reading 71. -/
theorem move_to_height_tolerance_band_no_motion_witness :
    move_to_height cfgA [.ok 71] 70 = (.ok (), [.sensorRead (.ok 71)]) :=
  move_to_height_tolerance_band_no_motion cfgA [] 70 71 (by decide) (by decide)
    (by decide) (by decide)

/-- One continuing step of the ascend-poll on a successful reading. -/
theorem ascendLoop_cons_ok (prev cur h : ℕ) (rest : List (Except ℕ ℕ))
    (hpc : prev < cur) :
    ascendLoop (.ok h :: rest) prev cur =
      ((ascendLoop rest cur h).1,
        .sensorRead (.ok h) :: (ascendLoop rest cur h).2.1,
        (ascendLoop rest cur h).2.2) := by
  have h1 : ascendLoop (.ok h :: rest) prev cur =
      if prev < cur then
        ((ascendLoop rest cur h).1,
          .sensorRead (.ok h) :: (ascendLoop rest cur h).2.1,
          (ascendLoop rest cur h).2.2)
      else (.ok cur, [], .ok h :: rest) := by
    rw [ascendLoop.eq_def]
  rw [h1, if_pos hpc]

/-- One continuing step of the ascend-poll on a failed reading. -/
theorem ascendLoop_cons_err (prev cur e : ℕ) (rest : List (Except ℕ ℕ))
    (hpc : prev < cur) :
    ascendLoop (.error e :: rest) prev cur =
      (.error (.sensor e), [.sensorRead (.error e)], rest) := by
  have h1 : ascendLoop (.error e :: rest) prev cur =
      if prev < cur then
        (.error (.sensor e), [.sensorRead (.error e)], rest)
      else (.ok cur, [], .error e :: rest) := by
    rw [ascendLoop.eq_def]
  rw [h1, if_pos hpc]

/-- The ascend-poll exits as soon as the latest reading is not strictly above
its predecessor, consuming nothing further. -/
theorem ascendLoop_exit (prev cur : ℕ) (reads : List (Except ℕ ℕ))
    (h : ¬ prev < cur) :
    ascendLoop reads prev cur = (.ok cur, [], reads) := by
  rcases reads with _ | ⟨r, rest⟩
  · have h1 : ascendLoop [] prev cur =
        if prev < cur then
          ((.error .outOfReadings, [], []) :
            Except TableError ℕ × List Event × List (Except ℕ ℕ))
        else (.ok cur, [], []) := by
      rw [ascendLoop.eq_def]
    rw [h1, if_neg h]
  · rcases r with e | hh
    · have h1 : ascendLoop (.error e :: rest) prev cur =
          if prev < cur then
            (.error (.sensor e), [.sensorRead (.error e)], rest)
          else (.ok cur, [], .error e :: rest) := by
        rw [ascendLoop.eq_def]
      rw [h1, if_neg h]
    · have h1 : ascendLoop (.ok hh :: rest) prev cur =
          if prev < cur then
            ((ascendLoop rest cur hh).1,
              .sensorRead (.ok hh) :: (ascendLoop rest cur hh).2.1,
              (ascendLoop rest cur hh).2.2)
          else (.ok cur, [], .ok hh :: rest) := by
        rw [ascendLoop.eq_def]
      rw [h1, if_neg h]

/-- One continuing step of the descend-poll on a successful reading. -/
theorem descendLoop_cons_ok (prev cur h : ℕ) (rest : List (Except ℕ ℕ))
    (hpc : cur < prev) :
    descendLoop (.ok h :: rest) prev cur =
      ((descendLoop rest cur h).1,
        .sensorRead (.ok h) :: (descendLoop rest cur h).2.1,
        (descendLoop rest cur h).2.2) := by
  have h1 : descendLoop (.ok h :: rest) prev cur =
      if cur < prev then
        ((descendLoop rest cur h).1,
          .sensorRead (.ok h) :: (descendLoop rest cur h).2.1,
          (descendLoop rest cur h).2.2)
      else (.ok cur, [], .ok h :: rest) := by
    rw [descendLoop.eq_def]
  rw [h1, if_pos hpc]

/-- One continuing step of the descend-poll on a failed reading. -/
theorem descendLoop_cons_err (prev cur e : ℕ) (rest : List (Except ℕ ℕ))
    (hpc : cur < prev) :
    descendLoop (.error e :: rest) prev cur =
      (.error (.sensor e), [.sensorRead (.error e)], rest) := by
  have h1 : descendLoop (.error e :: rest) prev cur =
      if cur < prev then
        (.error (.sensor e), [.sensorRead (.error e)], rest)
      else (.ok cur, [], .error e :: rest) := by
    rw [descendLoop.eq_def]
  rw [h1, if_pos hpc]

/-- The descend-poll exits as soon as the latest reading is not strictly
below its predecessor. -/
theorem descendLoop_exit (prev cur : ℕ) (reads : List (Except ℕ ℕ))
    (h : ¬ cur < prev) :
    descendLoop reads prev cur = (.ok cur, [], reads) := by
  rcases reads with _ | ⟨r, rest⟩
  · have h1 : descendLoop [] prev cur =
        if cur < prev then
          ((.error .outOfReadings, [], []) :
            Except TableError ℕ × List Event × List (Except ℕ ℕ))
        else (.ok cur, [], []) := by
      rw [descendLoop.eq_def]
    rw [h1, if_neg h]
  · rcases r with e | hh
    · have h1 : descendLoop (.error e :: rest) prev cur =
          if cur < prev then
            (.error (.sensor e), [.sensorRead (.error e)], rest)
          else (.ok cur, [], .error e :: rest) := by
        rw [descendLoop.eq_def]
      rw [h1, if_neg h]
    · have h1 : descendLoop (.ok hh :: rest) prev cur =
          if cur < prev then
            ((descendLoop rest cur hh).1,
              .sensorRead (.ok hh) :: (descendLoop rest cur hh).2.1,
              (descendLoop rest cur hh).2.2)
          else (.ok cur, [], .ok hh :: rest) := by
        rw [descendLoop.eq_def]
      rw [h1, if_neg h]

/-- The ascend-poll consumes exactly a strictly-increasing run of readings
plus the first non-increasing one, which it returns as the detected top. -/
theorem ascendLoop_run (ups : List ℕ) :
    ∀ (prev cur uStop : ℕ) (rest : List (Except ℕ ℕ)),
    prev < cur → List.Chain (· < ·) cur ups →
    uStop ≤ (cur :: ups).getLast (List.cons_ne_nil _ _) →
    ascendLoop (List.map Except.ok (ups ++ [uStop]) ++ rest) prev cur =
      (.ok uStop,
        List.map (fun h => Event.sensorRead (.ok h)) (ups ++ [uStop]), rest) := by
  induction ups with
  | nil =>
    intro prev cur uStop rest hpc _ hstop
    rw [List.getLast_singleton] at hstop
    simp only [List.nil_append, List.map_cons, List.map_nil, List.cons_append,
      List.nil_append]
    rw [ascendLoop_cons_ok prev cur uStop rest hpc]
    rw [ascendLoop_exit cur uStop rest (by omega)]
  | cons u us ih =>
    intro prev cur uStop rest hpc hchain hstop
    obtain ⟨hcu, hchain2⟩ := List.chain_cons.mp hchain
    rw [List.getLast_cons (List.cons_ne_nil _ _)] at hstop
    simp only [List.cons_append, List.map_cons]
    rw [ascendLoop_cons_ok prev cur u _ hpc]
    rw [ih cur u uStop rest hcu hchain2 hstop]

/-- A read failure while the ascend-poll is still running propagates,
consuming the strictly-increasing prefix and the failing read only. -/
theorem ascendLoop_err (ups : List ℕ) :
    ∀ (prev cur e : ℕ) (rest : List (Except ℕ ℕ)),
    prev < cur → List.Chain (· < ·) cur ups →
    ascendLoop (List.map Except.ok ups ++ .error e :: rest) prev cur =
      (.error (.sensor e),
        List.map (fun h => Event.sensorRead (.ok h)) ups ++
          [.sensorRead (.error e)], rest) := by
  induction ups with
  | nil =>
    intro prev cur e rest hpc _
    simp only [List.map_nil, List.nil_append]
    rw [ascendLoop_cons_err prev cur e rest hpc]
  | cons u us ih =>
    intro prev cur e rest hpc hchain
    obtain ⟨hcu, hchain2⟩ := List.chain_cons.mp hchain
    simp only [List.map_cons, List.cons_append]
    rw [ascendLoop_cons_ok prev cur u _ hpc]
    rw [ih cur u e rest hcu hchain2]

/-- The descend-poll consumes exactly a strictly-decreasing run of readings
plus the first non-decreasing one, which it returns as the detected bottom. -/
theorem descendLoop_run (downs : List ℕ) :
    ∀ (prev cur dStop : ℕ) (rest : List (Except ℕ ℕ)),
    cur < prev → List.Chain (fun a b => b < a) cur downs →
    (cur :: downs).getLast (List.cons_ne_nil _ _) ≤ dStop →
    descendLoop (List.map Except.ok (downs ++ [dStop]) ++ rest) prev cur =
      (.ok dStop,
        List.map (fun h => Event.sensorRead (.ok h)) (downs ++ [dStop]), rest) := by
  induction downs with
  | nil =>
    intro prev cur dStop rest hpc _ hstop
    rw [List.getLast_singleton] at hstop
    simp only [List.nil_append, List.map_cons, List.map_nil, List.cons_append,
      List.nil_append]
    rw [descendLoop_cons_ok prev cur dStop rest hpc]
    rw [descendLoop_exit cur dStop rest (by omega)]
  | cons d ds ih =>
    intro prev cur dStop rest hpc hchain hstop
    obtain ⟨hcd, hchain2⟩ := List.chain_cons.mp hchain
    rw [List.getLast_cons (List.cons_ne_nil _ _)] at hstop
    simp only [List.cons_append, List.map_cons]
    rw [descendLoop_cons_ok prev cur d _ hpc]
    rw [ih cur d dStop rest hcd hchain2 hstop]

/-- A read failure while the descend-poll is still running propagates. -/
theorem descendLoop_err (downs : List ℕ) :
    ∀ (prev cur e : ℕ) (rest : List (Except ℕ ℕ)),
    cur < prev → List.Chain (fun a b => b < a) cur downs →
    descendLoop (List.map Except.ok downs ++ .error e :: rest) prev cur =
      (.error (.sensor e),
        List.map (fun h => Event.sensorRead (.ok h)) downs ++
          [.sensorRead (.error e)], rest) := by
  induction downs with
  | nil =>
    intro prev cur e rest hpc _
    simp only [List.map_nil, List.nil_append]
    rw [descendLoop_cons_err prev cur e rest hpc]
  | cons d ds ih =>
    intro prev cur e rest hpc hchain
    obtain ⟨hcd, hchain2⟩ := List.chain_cons.mp hchain
    simp only [List.map_cons, List.cons_append]
    rw [descendLoop_cons_ok prev cur d _ hpc]
    rw [ih cur d e rest hcd hchain2]

/-- C7: `calibrate` commands the motor up, polls while readings strictly
increase, stops on the first non-increase, stores the configured physical
maximum via `set_max_height`, then symmetrically commands down, polls while
readings strictly decrease, stops, stores the configured physical minimum via
`set_min_height`, and ends by moving to the sitting position. -/
theorem calibrate_sequence (cfg : TableConfig) (h0 uStop dStop : ℕ)
    (ups downs : List ℕ) (after : List (Except ℕ ℕ))
    (h0pos : 1 ≤ h0)
    (hup : List.Chain (· < ·) h0 ups)
    (hustop : uStop ≤ (h0 :: ups).getLast (List.cons_ne_nil _ _))
    (hdown : List.Chain (fun a b => b < a) uStop downs)
    (hdstop : (uStop :: downs).getLast (List.cons_ne_nil _ _) ≤ dStop) :
    calibrate cfg
      ⟨.ok h0 ::
          (List.map Except.ok (ups ++ [uStop]) ++
            (List.map Except.ok (downs ++ [dStop]) ++ after)),
        .ok (), .ok ()⟩ =
      ((move_to_sitting cfg after).1,
        Event.motorUp :: Event.sensorRead (.ok h0) ::
          (List.map (fun h => Event.sensorRead (.ok h)) (ups ++ [uStop]) ++
            Event.motorStop :: Event.setMaxHeight cfg.max_table_height ::
            Event.motorDown ::
            (List.map (fun h => Event.sensorRead (.ok h)) (downs ++ [dStop]) ++
              Event.motorStop :: Event.setMinHeight cfg.min_table_height ::
              (move_to_sitting cfg after).2.1))) := by
  simp only [calibrate]
  rw [ascendLoop_run ups (h0 - 1) h0 uStop _ (by omega) hup hustop]
  dsimp only
  rw [descendLoop_run downs (uStop + 1) uStop dStop after (by omega) hdown hdstop]
  rcases hms : move_to_sitting cfg after with ⟨res, tr3, rem3⟩
  simp [hms]

/-- Witness for C7: a concrete calibration run (up 100→105→110, top plateau
110, down 100→90, bottom plateau 90, then sitting via readings 75, 70). -/
theorem calibrate_sequence_witness :
    calibrate cfgA
      ⟨.ok 100 ::
          (List.map Except.ok ([105, 110] ++ [110]) ++
            (List.map Except.ok ([100, 90] ++ [90]) ++ [.ok 75, .ok 70])),
        .ok (), .ok ()⟩ =
      ((move_to_sitting cfgA [.ok 75, .ok 70]).1,
        Event.motorUp :: Event.sensorRead (.ok 100) ::
          (List.map (fun h => Event.sensorRead (.ok h)) ([105, 110] ++ [110]) ++
            Event.motorStop :: Event.setMaxHeight cfgA.max_table_height ::
            Event.motorDown ::
            (List.map (fun h => Event.sensorRead (.ok h)) ([100, 90] ++ [90]) ++
              Event.motorStop :: Event.setMinHeight cfgA.min_table_height ::
              (move_to_sitting cfgA [.ok 75, .ok 70]).2.1))) :=
  calibrate_sequence cfgA 100 110 90 [105, 110] [100, 90] [.ok 75, .ok 70]
    (by omega)
    (List.Chain.cons (by omega) (List.Chain.cons (by omega) List.Chain.nil))
    (by decide)
    (List.Chain.cons (by omega) (List.Chain.cons (by omega) List.Chain.nil))
    (by decide)

/-- Sensor reads are not motor commands: filtering them away is empty. -/
theorem filter_isMotorEvent_sensorReads (l : List ℕ) :
    List.filter isMotorEvent (l.map fun h => Event.sensorRead (.ok h)) = [] := by
  induction l with
  | nil => rfl
  | cons a l ih => simp [isMotorEvent, ih]

/-- C8: a sensor read error inside either polling loop of `calibrate` aborts
the sequence, propagates the error, and issues no motor stop after the last
motor command: the motor is left commanded up (error in the ascend poll) or
down (error in the descend poll). -/
theorem calibrate_read_error_aborts_without_stop (cfg : TableConfig)
    (h0 uStop e : ℕ) (ups downs : List ℕ) (rest : List (Except ℕ ℕ))
    (smax smin : Except ℕ Unit) :
    (1 ≤ h0 → List.Chain (· < ·) h0 ups →
      calibrate cfg
          ⟨.ok h0 :: (List.map Except.ok ups ++ .error e :: rest),
            smax, smin⟩ =
        (.error (.sensor e),
          Event.motorUp :: Event.sensorRead (.ok h0) ::
            (List.map (fun h => Event.sensorRead (.ok h)) ups ++
              [.sensorRead (.error e)])) ∧
      lastMotorEvent
          (calibrate cfg
            ⟨.ok h0 :: (List.map Except.ok ups ++ .error e :: rest),
              smax, smin⟩).2 = some .motorUp ∧
      Event.motorStop ∉
        (calibrate cfg
          ⟨.ok h0 :: (List.map Except.ok ups ++ .error e :: rest),
            smax, smin⟩).2) ∧
    (1 ≤ h0 → List.Chain (· < ·) h0 ups →
      uStop ≤ (h0 :: ups).getLast (List.cons_ne_nil _ _) →
      List.Chain (fun a b => b < a) uStop downs →
      calibrate cfg
          ⟨.ok h0 ::
              (List.map Except.ok (ups ++ [uStop]) ++
                (List.map Except.ok downs ++ .error e :: rest)),
            .ok (), smin⟩ =
        (.error (.sensor e),
          Event.motorUp :: Event.sensorRead (.ok h0) ::
            (List.map (fun h => Event.sensorRead (.ok h)) (ups ++ [uStop]) ++
              Event.motorStop :: Event.setMaxHeight cfg.max_table_height ::
              Event.motorDown ::
              (List.map (fun h => Event.sensorRead (.ok h)) downs ++
                [.sensorRead (.error e)]))) ∧
      lastMotorEvent
          (calibrate cfg
            ⟨.ok h0 ::
                (List.map Except.ok (ups ++ [uStop]) ++
                  (List.map Except.ok downs ++ .error e :: rest)),
              .ok (), smin⟩).2 = some .motorDown) := by
  constructor
  · intro hh hc
    have heq : calibrate cfg
        ⟨.ok h0 :: (List.map Except.ok ups ++ .error e :: rest), smax, smin⟩ =
        (.error (.sensor e),
          Event.motorUp :: Event.sensorRead (.ok h0) ::
            (List.map (fun h => Event.sensorRead (.ok h)) ups ++
              [.sensorRead (.error e)])) := by
      simp only [calibrate]
      rw [ascendLoop_err ups (h0 - 1) h0 e rest (by omega) hc]
    refine ⟨heq, ?_, ?_⟩
    · rw [heq]
      simp [lastMotorEvent, isMotorEvent, List.filter_append,
        filter_isMotorEvent_sensorReads]
    · rw [heq]
      simp [isMotorEvent]
  · intro hh hc hstop hdc
    have heq : calibrate cfg
        ⟨.ok h0 ::
            (List.map Except.ok (ups ++ [uStop]) ++
              (List.map Except.ok downs ++ .error e :: rest)),
          .ok (), smin⟩ =
        (.error (.sensor e),
          Event.motorUp :: Event.sensorRead (.ok h0) ::
            (List.map (fun h => Event.sensorRead (.ok h)) (ups ++ [uStop]) ++
              Event.motorStop :: Event.setMaxHeight cfg.max_table_height ::
              Event.motorDown ::
              (List.map (fun h => Event.sensorRead (.ok h)) downs ++
                [.sensorRead (.error e)]))) := by
      simp only [calibrate]
      rw [ascendLoop_run ups (h0 - 1) h0 uStop _ (by omega) hc hstop]
      dsimp only
      rw [descendLoop_err downs (uStop + 1) uStop e rest (by omega) hdc]
      simp
    refine ⟨heq, ?_⟩
    rw [heq]
    simp [lastMotorEvent, isMotorEvent, List.filter_append,
      filter_isMotorEvent_sensorReads]

/-- Witness for C8: a read error on the third reading of the up poll, and a
read error in the down poll after the top was detected at 105. -/
theorem calibrate_read_error_witness :
    calibrate cfgA ⟨[.ok 100, .ok 105, .error 7], .ok (), .ok ()⟩ =
      (.error (.sensor 7),
        [Event.motorUp, .sensorRead (.ok 100), .sensorRead (.ok 105),
          .sensorRead (.error 7)]) ∧
    lastMotorEvent
        (calibrate cfgA ⟨[.ok 100, .ok 105, .error 7], .ok (), .ok ()⟩).2 =
      some .motorUp ∧
    Event.motorStop ∉
      (calibrate cfgA ⟨[.ok 100, .ok 105, .error 7], .ok (), .ok ()⟩).2 ∧
    calibrate cfgA
        ⟨[.ok 100, .ok 105, .ok 105, .ok 95, .error 7], .ok (), .ok ()⟩ =
      (.error (.sensor 7),
        [Event.motorUp, .sensorRead (.ok 100), .sensorRead (.ok 105),
          .sensorRead (.ok 105), Event.motorStop, .setMaxHeight 120,
          Event.motorDown, .sensorRead (.ok 95), .sensorRead (.error 7)]) ∧
    lastMotorEvent
        (calibrate cfgA
          ⟨[.ok 100, .ok 105, .ok 105, .ok 95, .error 7], .ok (), .ok ()⟩).2 =
      some .motorDown := by
  have hu := (calibrate_read_error_aborts_without_stop cfgA 100 0 7 [105] [] []
      (.ok ()) (.ok ())).1 (by omega)
      (List.Chain.cons (by omega) List.Chain.nil)
  have hd := (calibrate_read_error_aborts_without_stop cfgA 100 105 7 [105] [95]
      [] (.ok ()) (.ok ())).2 (by omega)
      (List.Chain.cons (by omega) List.Chain.nil) (by decide)
      (List.Chain.cons (by omega) List.Chain.nil)
  exact ⟨hu.1, hu.2.1, hu.2.2, hd.1, hd.2⟩
